import Mathlib

/-!
Formal model of the RepoLogic retrieval core: the embedding store of
src/tools/embedder.py (EmbeddingStore.embed_chunks, create_index, has_index,
search_similar, search_by_selection) and the free-text question endpoint of
src/app.py (ask_question), together with proofs about their behavior.

Machine floats of the original are modelled as rationals; the external
embedding model, the LLM, the URL-to-id parser and the chunk store are
parameters of the model (an `Env`), since they are external collaborators or
live outside the verified sources.  Persisted files are a `StoreState`
mapping repository ids to the optional contents of the three artifact files
that create_index writes.
-/

namespace RepoLogic

/-- Modelled from the spec: tools/chunker.py (the module defining
`LineNumberChunk`) is not among the given sources.  The fields follow the
Segment data model of spec section 3 and the attribute accesses made by
src/tools/embedder.py and src/app.py (`chunk_id`, `file_path`, `language`,
`content`, `start_line`, `end_line`). -/
structure LineNumberChunk where
  chunk_id : String
  repo_id : String
  file_path : String
  start_line : Nat
  end_line : Nat
  content : String
  language : String
  extension : String
deriving DecidableEq

/-- The in-memory form of a persisted FAISS `IndexFlatL2`: its dimension and
the stored vectors in insertion order. -/
structure FaissIndex where
  dim : Nat
  vectors : List (List Rat)
deriving DecidableEq

/-- Contents of the `repo_id`_info.pkl header written by create_index. -/
structure IndexInfo where
  total_chunks : Nat
  dimension : Nat
  repo_id : String
deriving DecidableEq

/-- The persisted artifact files under Config.VECTOR_DB_PATH, one optional
entry per repository id for each of the three files create_index writes:
`repo_id`.faiss, `repo_id`_chunks.pkl and `repo_id`_info.pkl. -/
structure StoreState where
  faissFile : String → Option FaissIndex
  chunksFile : String → Option (List LineNumberChunk)
  infoFile : String → Option IndexInfo

/-- External collaborators of the retrieval core, passed as parameters:
the embedding model (embed_documents / embed_query, which may raise), the
LLM (llm.invoke, which may raise), get_repo_id from tools/github_loader.py
(not among the given sources), and ChunkStore.get_chunks_by_lines from
tools/chunker.py (not among the given sources; per spec section 4.2 the
overlap query totally returns a list, empty when nothing is stored). -/
structure Env where
  embedDocuments : List String → Except String (List (List Rat))
  embedQuery : String → Except String (List Rat)
  getRepoId : String → String
  generate : String → Except String String
  getChunksByLines : String → String → Nat → Nat → List LineNumberChunk

/-- EmbeddingStore.has_index: true iff the `repo_id`.faiss file and the
`repo_id`_chunks.pkl file both exist (the info header is not consulted). -/
def has_index (st : StoreState) (repo : String) : Bool :=
  (st.faissFile repo).isSome && (st.chunksFile repo).isSome

/-- The enriched text embedded for one chunk in embed_chunks:
"File: ...\nLanguage: ...\n\n..." . -/
def enrichedText (c : LineNumberChunk) : String :=
  "File: " ++ c.file_path ++ "\nLanguage: " ++ c.language ++ "\n\n" ++ c.content

/-- The batch loop of embed_chunks: texts are embedded in batches of 100 via
model.embed_documents; a raising batch makes the whole call raise (the
`raise e` in the except branch of the loop). -/
def embedBatches (env : Env) (ts : List String) : Except String (List (List Rat)) :=
  if h : ts = [] then .ok []
  else
    match env.embedDocuments (ts.take 100) with
    | .error e => .error e
    | .ok vs =>
      match embedBatches env (ts.drop 100) with
      | .error e => .error e
      | .ok rest => .ok (vs ++ rest)
termination_by ts.length
decreasing_by
  simp only [List.length_drop]
  have hp : 0 < ts.length := List.length_pos.mpr h
  omega

/-- EmbeddingStore.embed_chunks: empty input gives an empty array; otherwise
the enriched text of each chunk is embedded in batches, and the final
np.array(embeddings, dtype=float32) raises when the returned rows do not all
share one length (an inhomogeneous shape). -/
def embed_chunks (env : Env) (chunks : List LineNumberChunk) :
    Except String (List (List Rat)) :=
  if chunks = [] then .ok []
  else
    match embedBatches env (chunks.map enrichedText) with
    | .error e => .error e
    | .ok embs =>
      if embs.all (fun v => v.length = (embs.headD []).length) then .ok embs
      else .error "np.array: inhomogeneous shape"

/-- EmbeddingStore.create_index: refuses an empty chunk list; generates
embeddings (any raise is caught by the except branch, returning False with
nothing written); refuses a size-zero embedding array; otherwise writes the
three artifact files for the repository and returns True.  The returned pair
is (success flag, resulting file state). -/
def create_index (env : Env) (st : StoreState) (repo : String)
    (chunks : List LineNumberChunk) : Bool × StoreState :=
  if chunks = [] then (false, st)
  else
    match embed_chunks env chunks with
    | .error _ => (false, st)
    | .ok embs =>
      if embs.length * (embs.headD []).length = 0 then (false, st)
      else
        (true,
          { faissFile := fun r =>
              if r = repo then some ⟨(embs.headD []).length, embs⟩ else st.faissFile r
            chunksFile := fun r =>
              if r = repo then some chunks else st.chunksFile r
            infoFile := fun r =>
              if r = repo then some ⟨chunks.length, (embs.headD []).length, repo⟩
              else st.infoFile r })

/-- Squared Euclidean (L2) distance, the metric of faiss.IndexFlatL2. -/
def sqDist (u v : List Rat) : Rat :=
  (List.zipWith (fun a b => (a - b) * (a - b)) u v).sum

/-- Insert a (label, distance) pair after every stored pair of smaller or
equal distance, so that equal distances keep insertion order. -/
def insertByDist (x : Int × Rat) : List (Int × Rat) → List (Int × Rat)
  | [] => [x]
  | y :: ys => if y.2 ≤ x.2 then y :: insertByDist x ys else x :: y :: ys

/-- Stable sort of (label, distance) pairs by ascending distance. -/
def sortByDist (l : List (Int × Rat)) : List (Int × Rat) :=
  l.foldl (fun acc x => insertByDist x acc) []

/-- Distances of all stored vectors to the query, labelled by position. -/
def rankList (vecs : List (List Rat)) (qv : List Rat) : List (Int × Rat) :=
  vecs.enum.map (fun p => ((p.1 : Int), sqDist qv p.2))

/-- The distance FAISS reports for padding entries (FLT_MAX). -/
def padDist : Rat := (2 : Rat) ^ 128 - (2 : Rat) ^ 104

/-- Behavior of faiss.IndexFlatL2.search for one query vector: raises (none)
on a dimension mismatch; otherwise returns exactly k (label, distance) pairs,
the stored vectors ranked by ascending L2 distance with ties in insertion
order, padded with label -1 and distance FLT_MAX when k exceeds the number of
stored vectors. -/
def faissSearch (fidx : FaissIndex) (qv : List Rat) (k : Nat) :
    Option (List (Int × Rat)) :=
  if qv.length = fidx.dim then
    some (((sortByDist (rankList fidx.vectors qv)) ++
      List.replicate (k - fidx.vectors.length) ((-1 : Int), padDist)).take k)
  else none

/-- Python list indexing: nonnegative positions index from the front,
positions in [-len, -1] wrap from the back, anything smaller raises
IndexError (none). -/
def pyGet {α : Type} (xs : List α) (i : Int) : Option α :=
  if 0 ≤ i then xs.get? i.toNat
  else if -(xs.length : Int) ≤ i then xs.get? (i + xs.length).toNat
  else none

/-- The result-collection loop of search_similar: for each returned
(label, distance) pair, if idx < len(chunks) the pair (chunks[idx], dist) is
appended (Python indexing, so a raise propagates as none); otherwise the pair
is skipped. -/
def collectResults (chunks : List LineNumberChunk) :
    List (Int × Rat) → Option (List (LineNumberChunk × Rat))
  | [] => some []
  | (i, d) :: rest =>
    if i < (chunks.length : Int) then
      match pyGet chunks i with
      | none => none
      | some c => (collectResults chunks rest).map (fun r => (c, d) :: r)
    else collectResults chunks rest

/-- EmbeddingStore.search_similar: returns [] when has_index fails; otherwise
loads the index and chunk list, embeds the query, searches for
min(k, len(chunks)) neighbors and collects (chunk, distance) pairs; any raise
inside the try block (embedding failure, dimension mismatch, IndexError) is
caught and turned into []. -/
def search_similar (env : Env) (st : StoreState) (repo query : String)
    (k : Nat) : List (LineNumberChunk × Rat) :=
  if has_index st repo then
    match st.faissFile repo, st.chunksFile repo with
    | some fidx, some chunks =>
      match env.embedQuery query with
      | .error _ => []
      | .ok qv =>
        match faissSearch fidx qv (min k chunks.length) with
        | none => []
        | some pairs =>
          match collectResults chunks pairs with
          | none => []
          | some rs => rs
    | _, _ => []
  else []

/-- Result of search_by_selection: the chunks overlapping the selection and
the additional semantic-context chunks. -/
structure SelectionResult where
  selected_chunks : List LineNumberChunk
  context_chunks : List LineNumberChunk
deriving DecidableEq

/-- The context-collection loop of search_by_selection: walk the similarity
results in order, skip any chunk whose chunk_id is among the selected ids,
append the others, and break once the collected count reaches
additional_context_k (the count check happens after the append).  `n` is the
number already collected. -/
def contextLoop (selIds : List String) (k : Nat) :
    List (LineNumberChunk × Rat) → Nat → List LineNumberChunk
  | [], _ => []
  | (c, _) :: rest, n =>
    if c.chunk_id ∈ selIds then contextLoop selIds k rest n
    else if k ≤ n + 1 then [c]
    else c :: contextLoop selIds k rest (n + 1)

/-- EmbeddingStore.search_by_selection: fetch the chunks overlapping the
selected lines from the ChunkStore; when at least one overlap exists and the
repository has an index, use the content of the first overlap as a similarity
query for additional_context_k + len(selected) neighbors and keep survivors
not already selected; otherwise the context list stays empty. -/
def search_by_selection (env : Env) (st : StoreState) (repo file : String)
    (startLine endLine : Nat) (k : Nat) : SelectionResult :=
  let selected := env.getChunksByLines repo file startLine endLine
  let context :=
    match selected with
    | [] => []
    | c :: _ =>
      if has_index st repo then
        contextLoop (selected.map LineNumberChunk.chunk_id) k
          (search_similar env st repo c.content (k + selected.length)) 0
      else []
  ⟨selected, context⟩

/-- Outcome of the /ask endpoint: either a JSON error body with an HTTP
status, or a 200 success body carrying question, answer and chunks_used. -/
inductive AskResult where
  | err (status : Nat) (message : String)
  | ok (question answer : String) (chunksUsed : Nat)
deriving DecidableEq

/-- The canned 200 answer ask_question returns when search_similar finds
nothing. -/
def noAnswerText : String :=
  "I couldn\x27t find relevant information in the repository to answer this question."

/-- One context block of ask_question: "[file:start-end]\ncontent". -/
def chunkRef (c : LineNumberChunk) : String :=
  "[" ++ c.file_path ++ ":" ++ toString c.start_line ++ "-" ++
    toString c.end_line ++ "]\n" ++ c.content

/-- The retrieved-context text of ask_question: blocks joined by
"\n\n---\n\n". -/
def contextText (rs : List (LineNumberChunk × Rat)) : String :=
  String.intercalate "\n\n---\n\n" (rs.map (fun p => chunkRef p.1))

/-- QA_PROMPT of src/app.py with the question and context interpolated. -/
def qaPrompt (question context : String) : String :=
  "You are an expert code analyst helping a developer understand a repository.\n\n**User Question**: " ++
    question ++
    "\n\n**Retrieved Repository Context**:\n" ++
    context ++
    "\n\n**Your Task**: Answer the user\x27s question based ONLY on the retrieved context.\n\nGuidelines:\n1. **Be specific**: Reference exact files, functions, and line ranges when possible\n2. **Multi-file reasoning**: If the answer spans multiple files, explain the connections\n3. **Grounded answers**: Only use information from the context above\n4. **Admit limitations**: If the context doesn\x27t contain the answer, clearly state: \"I couldn\x27t find information about [topic] in the retrieved context.\"\n5. **Structured response**: Use bullet points, code snippets, and clear sections\n\nUse Markdown formatting. Be educational and precise.\n\nAnswer:"

/-- Python str.strip() on its default whitespace set: drop leading and
trailing whitespace characters.  (Defined structurally over the character
list so that concrete calls evaluate.) -/
def pyStrip (s : String) : String :=
  ⟨((s.data.dropWhile Char.isWhitespace).reverse.dropWhile Char.isWhitespace).reverse⟩

/-- The /ask handler (ask_question in src/app.py), after JSON-body
validation: strips both fields, rejects empty ones with 400, resolves the
repository id, rejects a repository without an index with 400 before any
retrieval, retrieves 5 similar chunks, returns the canned 200 answer when
none are found, and otherwise asks the LLM (whose raise the except branch
turns into a 500 error). -/
def ask_question (env : Env) (st : StoreState) (repoUrl question : String) :
    AskResult :=
  let url := pyStrip repoUrl
  let q := pyStrip question
  if url = "" ∨ q = "" then .err 400 "repo_url and question cannot be empty"
  else
    let repoId := env.getRepoId url
    if has_index st repoId then
      let similar := search_similar env st repoId q 5
      if similar = [] then .ok q noAnswerText 0
      else
        match env.generate (qaPrompt q (contextText similar)) with
        | .error e => .err 500 ("Q&A failed: " ++ e)
        | .ok ans => .ok q ans similar.length
    else .err 400 "Repository not indexed. Please analyze the repository first."

/-! Concrete repositories, states and environments used by the witnesses and
counterexamples below. -/

/-- A sample chunk with chunk_id "a". -/
def cA : LineNumberChunk := ⟨"a", "r", "f", 1, 4, "x", "py", ".py"⟩

/-- A sample chunk with chunk_id "b". -/
def cB : LineNumberChunk := ⟨"b", "r", "f", 4, 7, "y", "py", ".py"⟩

/-- A sample chunk with chunk_id "c". -/
def cC : LineNumberChunk := ⟨"c", "r", "f", 7, 10, "z", "py", ".py"⟩

/-- The state with no persisted artifact at all. -/
def emptyState : StoreState := ⟨fun _ => none, fun _ => none, fun _ => none⟩

/-- A consistent index for repository "r": two 1-dimensional vectors aligned
with chunks [cA, cB]; no info header (has_index does not read it). -/
def st2 : StoreState :=
  { faissFile := fun r => if r = "r" then some ⟨1, [[0], [1]]⟩ else none
    chunksFile := fun r => if r = "r" then some [cA, cB] else none
    infoFile := fun _ => none }

/-- A partially written artifact set for "r": the FAISS file holds a single
vector while the chunk file holds two chunks, and the info header is
missing. -/
def st10 : StoreState :=
  { faissFile := fun r => if r = "r" then some ⟨1, [[0]]⟩ else none
    chunksFile := fun r => if r = "r" then some [cA, cB] else none
    infoFile := fun _ => none }

/-- The spec scenario state: 3 stored vectors of dimension 8 aligned with
3 chunks, all three artifacts present and consistent. -/
def st8 : StoreState :=
  { faissFile := fun r =>
      if r = "r" then
        some ⟨8, [[1, 0, 0, 0, 0, 0, 0, 0], [0, 1, 0, 0, 0, 0, 0, 0],
          [0, 0, 1, 0, 0, 0, 0, 0]]⟩
      else none
    chunksFile := fun r => if r = "r" then some [cA, cB, cC] else none
    infoFile := fun r => if r = "r" then some ⟨3, 8, "r"⟩ else none }

/-- An environment whose chunk store reports [cA] overlapping and whose
embedding model maps every query to [1] (nearest to the stored vector of cB). -/
def envSel : Env :=
  { embedDocuments := fun _ => .ok []
    embedQuery := fun _ => .ok [1]
    getRepoId := fun s => s
    generate := fun _ => .ok ""
    getChunksByLines := fun _ _ _ _ => [cA] }

/-- An environment whose embedding model maps every query to [0]. -/
def env10 : Env :=
  { embedDocuments := fun _ => .ok []
    embedQuery := fun _ => .ok [0]
    getRepoId := fun s => s
    generate := fun _ => .ok ""
    getChunksByLines := fun _ _ _ _ => [] }

/-- An environment whose embedding model maps every query to the
8-dimensional vector [1,0,0,0,0,0,0,0]. -/
def env8 : Env :=
  { embedDocuments := fun _ => .ok []
    embedQuery := fun _ => .ok [1, 0, 0, 0, 0, 0, 0, 0]
    getRepoId := fun s => s
    generate := fun _ => .ok ""
    getChunksByLines := fun _ _ _ _ => [cA] }

/-- An environment whose embedding service raises on every call. -/
def envFail : Env :=
  { embedDocuments := fun _ => .error "boom"
    embedQuery := fun _ => .error "boom"
    getRepoId := fun s => s
    generate := fun _ => .ok ""
    getChunksByLines := fun _ _ _ _ => [cA] }

/-! Helper lemmas about the ranking, collection and context loops. -/

theorem mem_insertByDist (x y : Int × Rat) (l : List (Int × Rat)) :
    y ∈ insertByDist x l ↔ y = x ∨ y ∈ l := by
  induction l with
  | nil => simp [insertByDist]
  | cons z zs ih =>
    simp only [insertByDist]
    split
    · simp only [List.mem_cons, ih]
      tauto
    · simp only [List.mem_cons]

theorem length_insertByDist (x : Int × Rat) (l : List (Int × Rat)) :
    (insertByDist x l).length = l.length + 1 := by
  induction l with
  | nil => rfl
  | cons z zs ih =>
    simp only [insertByDist]
    split
    · simp [ih]
    · simp

theorem sorted_insertByDist (x : Int × Rat) (l : List (Int × Rat))
    (h : l.Pairwise (fun a b => a.2 ≤ b.2)) :
    (insertByDist x l).Pairwise (fun a b => a.2 ≤ b.2) := by
  induction l with
  | nil => simp [insertByDist]
  | cons z zs ih =>
    rcases List.pairwise_cons.mp h with ⟨hz, hzs⟩
    simp only [insertByDist]
    split
    · rename_i hle
      refine List.pairwise_cons.mpr ⟨?_, ih hzs⟩
      intro b hb
      rcases (mem_insertByDist x b zs).mp hb with rfl | hbz
      · exact hle
      · exact hz b hbz
    · rename_i hnle
      have hxz : x.2 ≤ z.2 := le_of_not_le hnle
      refine List.pairwise_cons.mpr ⟨?_, h⟩
      intro b hb
      rcases List.mem_cons.mp hb with rfl | hbz
      · exact hxz
      · exact le_trans hxz (hz b hbz)

theorem mem_sortByDist_fold (y : Int × Rat) (l : List (Int × Rat)) :
    ∀ acc, (y ∈ l.foldl (fun a x => insertByDist x a) acc ↔ y ∈ acc ∨ y ∈ l) := by
  induction l with
  | nil => intro acc; simp
  | cons z zs ih =>
    intro acc
    simp only [List.foldl_cons]
    rw [ih]
    simp only [mem_insertByDist, List.mem_cons]
    tauto

theorem mem_sortByDist (y : Int × Rat) (l : List (Int × Rat)) :
    y ∈ sortByDist l ↔ y ∈ l := by
  simpa using mem_sortByDist_fold y l []

theorem length_sortByDist_fold (l : List (Int × Rat)) :
    ∀ acc, (l.foldl (fun a x => insertByDist x a) acc).length = acc.length + l.length := by
  induction l with
  | nil => intro acc; simp
  | cons z zs ih =>
    intro acc
    simp only [List.foldl_cons]
    rw [ih, length_insertByDist]
    simp only [List.length_cons]
    omega

theorem length_sortByDist (l : List (Int × Rat)) :
    (sortByDist l).length = l.length := by
  simpa using length_sortByDist_fold l []

theorem sorted_sortByDist_fold (l : List (Int × Rat)) :
    ∀ acc, acc.Pairwise (fun a b => a.2 ≤ b.2) →
      (l.foldl (fun a x => insertByDist x a) acc).Pairwise (fun a b => a.2 ≤ b.2) := by
  induction l with
  | nil => intro acc h; simpa using h
  | cons z zs ih => intro acc h; exact ih _ (sorted_insertByDist z acc h)

theorem sorted_sortByDist (l : List (Int × Rat)) :
    (sortByDist l).Pairwise (fun a b => a.2 ≤ b.2) :=
  sorted_sortByDist_fold l [] (by simp)

theorem rankList_mem_bounds {vecs : List (List Rat)} {qv : List Rat}
    {p : Int × Rat} (h : p ∈ rankList vecs qv) :
    0 ≤ p.1 ∧ p.1 < (vecs.length : Int) := by
  rcases List.mem_map.mp h with ⟨⟨i, v⟩, hmem, rfl⟩
  have hb := List.mem_enumFrom hmem
  simp only [Nat.zero_add] at hb
  constructor
  · exact Int.ofNat_nonneg i
  · show (i : Int) < (vecs.length : Int)
    exact_mod_cast hb.2.1

theorem length_rankList (vecs : List (List Rat)) (qv : List Rat) :
    (rankList vecs qv).length = vecs.length := by
  simp [rankList, List.enum_length]

theorem faissSearch_of_le (fidx : FaissIndex) (qv : List Rat) (k : Nat)
    (hd : qv.length = fidx.dim) (hk : k ≤ fidx.vectors.length) :
    faissSearch fidx qv k = some ((sortByDist (rankList fidx.vectors qv)).take k) := by
  simp [faissSearch, hd, Nat.sub_eq_zero_of_le hk]

theorem pyGet_mem {α : Type} {xs : List α} {i : Int} {a : α}
    (h : pyGet xs i = some a) : a ∈ xs := by
  unfold pyGet at h
  split at h
  · exact List.get?_mem h
  · split at h
    · exact List.get?_mem h
    · cases h

theorem collectResults_inbounds (chunks : List LineNumberChunk) :
    ∀ pairs : List (Int × Rat),
    (∀ p ∈ pairs, 0 ≤ p.1 ∧ p.1 < (chunks.length : Int)) →
    ∃ rs, collectResults chunks pairs = some rs ∧
      rs.length = pairs.length ∧
      rs.map Prod.snd = pairs.map Prod.snd ∧
      ∀ x ∈ rs, x.1 ∈ chunks := by
  intro pairs
  induction pairs with
  | nil => exact fun _ => ⟨[], rfl, rfl, rfl, by simp⟩
  | cons p rest ih =>
    intro h
    obtain ⟨i, d⟩ := p
    obtain ⟨h0, hl⟩ := h (i, d) (List.mem_cons_self _ _)
    obtain ⟨rs, hrs, hlen, hsnd, hmem⟩ :=
      ih (fun q hq => h q (List.mem_cons_of_mem _ hq))
    have hi : i.toNat < chunks.length := by omega
    have hc : chunks.get? i.toNat = some (chunks.get ⟨i.toNat, hi⟩) :=
      List.get?_eq_get hi
    refine ⟨(chunks.get ⟨i.toNat, hi⟩, d) :: rs, ?_, by simp [hlen], by simp [hsnd], ?_⟩
    · simp only [collectResults, if_pos hl, pyGet, if_pos h0, hc, hrs]
      rfl
    · intro x hx
      rcases List.mem_cons.mp hx with rfl | hx'
      · exact List.get_mem chunks _ _
      · exact hmem x hx'

theorem collectResults_count (chunks : List LineNumberChunk) :
    ∀ pairs rs, collectResults chunks pairs = some rs →
      rs.length = (pairs.filter (fun p => decide (p.1 < (chunks.length : Int)))).length ∧
      ∀ x ∈ rs, x.1 ∈ chunks := by
  intro pairs
  induction pairs with
  | nil =>
    intro rs h
    obtain rfl : ([] : List (LineNumberChunk × Rat)) = rs := Option.some.inj h
    exact ⟨rfl, by simp⟩
  | cons p rest ih =>
    intro rs h
    obtain ⟨i, d⟩ := p
    simp only [collectResults] at h
    by_cases hl : i < (chunks.length : Int)
    · rw [if_pos hl] at h
      cases hg : pyGet chunks i with
      | none => rw [hg] at h; cases h
      | some c =>
        rw [hg] at h
        cases hrest : collectResults chunks rest with
        | none => rw [hrest] at h; cases h
        | some rs' =>
          rw [hrest] at h
          obtain rfl : (c, d) :: rs' = rs := Option.some.inj h
          obtain ⟨hcount, hmem⟩ := ih rs' hrest
          constructor
          · simp [List.filter_cons, hl, hcount]
          · intro x hx
            rcases List.mem_cons.mp hx with rfl | hx'
            · exact pyGet_mem hg
            · exact hmem x hx'
    · rw [if_neg hl] at h
      obtain ⟨hcount, hmem⟩ := ih rs h
      refine ⟨?_, hmem⟩
      simp [List.filter_cons, hl, hcount]

theorem contextLoop_not_mem (selIds : List String) (k : Nat) :
    ∀ (sims : List (LineNumberChunk × Rat)) (n : Nat) (x : LineNumberChunk),
      x ∈ contextLoop selIds k sims n → x.chunk_id ∉ selIds := by
  intro sims
  induction sims with
  | nil => intro n x h; cases h
  | cons p rest ih =>
    intro n x h
    obtain ⟨c, d⟩ := p
    simp only [contextLoop] at h
    by_cases hc : c.chunk_id ∈ selIds
    · rw [if_pos hc] at h
      exact ih n x h
    · rw [if_neg hc] at h
      by_cases hk : k ≤ n + 1
      · rw [if_pos hk] at h
        obtain rfl : x = c := List.mem_singleton.mp h
        exact hc
      · rw [if_neg hk] at h
        rcases List.mem_cons.mp h with rfl | h'
        · exact hc
        · exact ih (n + 1) x h'

theorem contextLoop_eq (selIds : List String) (k : Nat) :
    ∀ (sims : List (LineNumberChunk × Rat)) (n : Nat),
      contextLoop selIds k sims n =
        ((sims.filter (fun p => decide (p.1.chunk_id ∉ selIds))).map
          Prod.fst).take (max (k - n) 1) := by
  intro sims
  induction sims with
  | nil => intro n; simp [contextLoop]
  | cons p rest ih =>
    intro n
    obtain ⟨c, d⟩ := p
    simp only [contextLoop]
    by_cases hc : c.chunk_id ∈ selIds
    · rw [if_pos hc, ih n]
      simp [List.filter_cons, hc]
    · by_cases hk : k ≤ n + 1
      · rw [if_neg hc, if_pos hk]
        have hmax : max (k - n) 1 = 1 := by omega
        simp [List.filter_cons, hc, hmax]
      · rw [if_neg hc, if_neg hk, ih (n + 1)]
        have hmax : max (k - n) 1 = max (k - (n + 1)) 1 + 1 := by omega
        simp only [List.filter_cons, hc, decide_not, decide_True, Bool.not_true]
        rw [hmax]
        simp [List.take_succ_cons, hc]

theorem search_similar_spec (env : Env) (st : StoreState) (repo query : String)
    (k : Nat) (fidx : FaissIndex) (chunks : List LineNumberChunk) (qv : List Rat)
    (hf : st.faissFile repo = some fidx)
    (hc : st.chunksFile repo = some chunks)
    (hlen : fidx.vectors.length = chunks.length)
    (hq : env.embedQuery query = .ok qv)
    (hd : qv.length = fidx.dim) :
    (search_similar env st repo query k).length = min k chunks.length ∧
    (search_similar env st repo query k).map Prod.snd =
      ((sortByDist (rankList fidx.vectors qv)).take (min k chunks.length)).map Prod.snd ∧
    (search_similar env st repo query k).Pairwise (fun a b => a.2 ≤ b.2) ∧
    ∀ x ∈ search_similar env st repo query k, x.1 ∈ chunks := by
  have hhas : has_index st repo = true := by simp [has_index, hf, hc]
  have hk' : min k chunks.length ≤ fidx.vectors.length := by
    rw [hlen]; exact Nat.min_le_right _ _
  have hfs := faissSearch_of_le fidx qv (min k chunks.length) hd hk'
  have hbounds : ∀ p ∈ (sortByDist (rankList fidx.vectors qv)).take (min k chunks.length),
      0 ≤ p.1 ∧ p.1 < (chunks.length : Int) := by
    intro p hp
    have hp' : p ∈ sortByDist (rankList fidx.vectors qv) :=
      (List.take_sublist _ _).subset hp
    have hb := rankList_mem_bounds ((mem_sortByDist p _).mp hp')
    rw [hlen] at hb
    exact hb
  obtain ⟨rs, hrs, hlen2, hsnd, hmem⟩ := collectResults_inbounds chunks _ hbounds
  have hss : search_similar env st repo query k = rs := by
    simp only [search_similar, hhas, if_true, hf, hc, hq, hfs, hrs]
  have hpairs_len : ((sortByDist (rankList fidx.vectors qv)).take
      (min k chunks.length)).length = min k chunks.length := by
    rw [List.length_take, length_sortByDist, length_rankList, hlen]
    exact Nat.min_eq_left (Nat.min_le_right _ _)
  have hpairs_sorted : ((sortByDist (rankList fidx.vectors qv)).take
      (min k chunks.length)).Pairwise (fun a b => a.2 ≤ b.2) :=
    List.Pairwise.sublist (List.take_sublist _ _) (sorted_sortByDist _)
  refine ⟨?_, ?_, ?_, ?_⟩
  · rw [hss, hlen2, hpairs_len]
  · rw [hss, hsnd]
  · rw [hss]
    have h1 : List.Pairwise (fun a b : Rat => a ≤ b) (rs.map Prod.snd) := by
      rw [hsnd]
      exact List.pairwise_map.mpr hpairs_sorted
    exact List.pairwise_map.mp h1
  · rw [hss]; exact hmem

/-- C1: if embedding fails (any batch raises inside embed_chunks), the whole
create_index call returns False with the persisted artifact set untouched,
so has_index reports exactly what it did before the call and no truncated or
misaligned index is ever written. -/
theorem c1_embed_failure_aborts_create_index (env : Env) (st : StoreState)
    (repo : String) (chunks : List LineNumberChunk) (e : String)
    (h : embed_chunks env chunks = .error e) :
    create_index env st repo chunks = (false, st) ∧
    has_index (create_index env st repo chunks).2 repo = has_index st repo := by
  have h1 : create_index env st repo chunks = (false, st) := by
    by_cases hc : chunks = []
    · simp [create_index, hc]
    · simp [create_index, hc, h]
  exact ⟨h1, by rw [h1]⟩

theorem c1_witness :
    embed_chunks envFail [cA] = .error "boom" ∧
    create_index envFail st2 "r" [cA] = (false, st2) := by
  have h : embed_chunks envFail [cA] = .error "boom" := by
    simp [embed_chunks, embedBatches, envFail]
  exact ⟨h, (c1_embed_failure_aborts_create_index envFail st2 "r" [cA] "boom" h).1⟩

/-- C2: for a repository whose index does not exist, the /ask path
(ask_question) fails with the 400 "Repository not indexed" error response —
a response distinct from every 200 success, in particular from the
empty-result success — rather than returning an empty result. -/
theorem c2_ask_unindexed_is_error (env : Env) (st : StoreState)
    (repoUrl question : String)
    (hu : pyStrip repoUrl ≠ "") (hq : pyStrip question ≠ "")
    (h : has_index st (env.getRepoId (pyStrip repoUrl)) = false) :
    ask_question env st repoUrl question =
      .err 400 "Repository not indexed. Please analyze the repository first." ∧
    ∀ q a n, ask_question env st repoUrl question ≠ .ok q a n := by
  have h1 : ask_question env st repoUrl question =
      .err 400 "Repository not indexed. Please analyze the repository first." := by
    simp [ask_question, hu, hq, h]
  refine ⟨h1, fun q a n hn => ?_⟩
  rw [h1] at hn
  cases hn

theorem c2_witness :
    pyStrip "u" ≠ "" ∧
    has_index emptyState (envSel.getRepoId (pyStrip "u")) = false ∧
    ask_question envSel emptyState "u" "w" =
      .err 400 "Repository not indexed. Please analyze the repository first." :=
  ⟨by decide, rfl,
    (c2_ask_unindexed_is_error envSel emptyState "u" "w" (by decide) (by decide) rfl).1⟩

/-- C3 counterexample: the state st10 has the FAISS file and the chunk file
for "r" but no info header, and their counts disagree (1 vector against
2 chunks); has_index still reports the index as present, so the claim that
exists/has_index is true only when all three artifacts are present and
mutually consistent is false on the code. -/
theorem c3_counterexample :
    has_index st10 "r" = true ∧ st10.infoFile "r" = none ∧
    ∃ fidx chunks, st10.faissFile "r" = some fidx ∧
      st10.chunksFile "r" = some chunks ∧ fidx.vectors.length ≠ chunks.length :=
  ⟨rfl, rfl, ⟨_, _, rfl, rfl, by decide⟩⟩

/-- C3 amended: has_index returns true exactly when the FAISS file and the
chunk-metadata file exist; the info header is never consulted and no
consistency between the artifacts is verified. -/
theorem c3_has_index_ignores_info_header (st : StoreState) (repo : String) :
    has_index st repo = ((st.faissFile repo).isSome && (st.chunksFile repo).isSome) ∧
    ∀ info, has_index ⟨st.faissFile, st.chunksFile, info⟩ repo = has_index st repo :=
  ⟨rfl, fun _ => rfl⟩

/-- C4: when the chunk store reports no overlapping chunk or the repository
has no vector index, search_by_selection returns the overlap list with an
empty context list, normally (the model is a total function; absence of an
index never fails the request). -/
theorem c4_selection_degrades_gracefully (env : Env) (st : StoreState)
    (repo file : String) (s e k : Nat)
    (h : env.getChunksByLines repo file s e = [] ∨ has_index st repo = false) :
    search_by_selection env st repo file s e k =
      ⟨env.getChunksByLines repo file s e, []⟩ := by
  rcases h with h | h
  · simp [search_by_selection, h]
  · cases hsel : env.getChunksByLines repo file s e with
    | nil => simp [search_by_selection, hsel]
    | cons c0 cs => simp [search_by_selection, hsel, h]

theorem c4_witness :
    has_index emptyState "r" = false ∧
    search_by_selection envSel emptyState "r" "f" 1 2 3 =
      ⟨[cA], ([] : List LineNumberChunk)⟩ :=
  ⟨rfl, c4_selection_degrades_gracefully envSel emptyState "r" "f" 1 2 3 (Or.inr rfl)⟩

/-- C5: whenever the chunk store reports at least one exact overlapping
chunk, no chunk in the context (related) list of search_by_selection shares
a chunk_id with any chunk in the selected (exact) list. -/
theorem c5_related_disjoint_from_exact (env : Env) (st : StoreState)
    (repo file : String) (s e k : Nat)
    (h : env.getChunksByLines repo file s e ≠ []) :
    ∀ c ∈ (search_by_selection env st repo file s e k).context_chunks,
      ∀ c' ∈ (search_by_selection env st repo file s e k).selected_chunks,
        c.chunk_id ≠ c'.chunk_id := by
  cases hsel : env.getChunksByLines repo file s e with
  | nil => exact absurd hsel h
  | cons c0 cs =>
    intro c hc c' hc'
    simp only [search_by_selection, hsel] at hc hc'
    by_cases hhas : has_index st repo = true
    · rw [if_pos hhas] at hc
      have hnot := contextLoop_not_mem _ k _ 0 c hc
      intro heq
      exact hnot (heq ▸ List.mem_map_of_mem LineNumberChunk.chunk_id hc')
    · rw [if_neg hhas] at hc
      cases hc

theorem c5_witness :
    envSel.getChunksByLines "r" "f" 1 2 ≠ [] ∧
    ∀ c ∈ (search_by_selection envSel st2 "r" "f" 1 2 3).context_chunks,
      ∀ c' ∈ (search_by_selection envSel st2 "r" "f" 1 2 3).selected_chunks,
        c.chunk_id ≠ c'.chunk_id :=
  ⟨by decide, c5_related_disjoint_from_exact envSel st2 "r" "f" 1 2 3 (by decide)⟩

/-- C6 counterexample: with additional_context_k = 0 the loop still appends
the first surviving neighbor before its bound check, so the context list has
one element although the claim promises at most extra_k = 0; the claim as
stated is false at this input. -/
theorem c6_counterexample :
    (search_by_selection envSel st2 "r" "f" 1 2 0).context_chunks = [cB] ∧
    ¬ (search_by_selection envSel st2 "r" "f" 1 2 0).context_chunks.length ≤ 0 := by
  have h : (search_by_selection envSel st2 "r" "f" 1 2 0).context_chunks = [cB] := by
    with_unfolding_all rfl
  exact ⟨h, by simp [h]⟩

/-- C6 amended: with an anchor and an index, search_by_selection embeds the
content of the first exact chunk, queries for extra_k + len(exact) neighbors
(returned in ascending-distance order), filters out neighbors whose
chunk_id is among the exact ids, and keeps the first max(extra_k, 1)
survivors — which is the first extra_k whenever extra_k ≥ 1, while
extra_k = 0 still yields one survivor because the bound is checked only
after the first append. -/
theorem c6_related_filtered_take (env : Env) (st : StoreState)
    (repo file : String) (s e extra_k : Nat) (c : LineNumberChunk)
    (cs : List LineNumberChunk) (fidx : FaissIndex)
    (chunks : List LineNumberChunk) (qv : List Rat)
    (hsel : env.getChunksByLines repo file s e = c :: cs)
    (hf : st.faissFile repo = some fidx)
    (hc : st.chunksFile repo = some chunks)
    (hlen : fidx.vectors.length = chunks.length)
    (hq : env.embedQuery c.content = .ok qv)
    (hd : qv.length = fidx.dim) :
    (search_by_selection env st repo file s e extra_k).context_chunks =
      (((search_similar env st repo c.content (extra_k + (c :: cs).length)).filter
        (fun p => decide (p.1.chunk_id ∉ (c :: cs).map LineNumberChunk.chunk_id))).map
        Prod.fst).take (max extra_k 1) ∧
    (search_similar env st repo c.content (extra_k + (c :: cs).length)).Pairwise
      (fun a b => a.2 ≤ b.2) := by
  have hhas : has_index st repo = true := by simp [has_index, hf, hc]
  constructor
  · simp only [search_by_selection, hsel, hhas, if_true]
    rw [contextLoop_eq]
    simp
  · exact (search_similar_spec env st repo c.content (extra_k + (c :: cs).length)
      fidx chunks qv hf hc hlen hq hd).2.2.1

theorem c6_witness :
    envSel.getChunksByLines "r" "f" 1 2 = [cA] ∧
    ((search_by_selection envSel st2 "r" "f" 1 2 1).context_chunks =
      (((search_similar envSel st2 "r" cA.content (1 + ([cA] : List LineNumberChunk).length)).filter
        (fun p => decide (p.1.chunk_id ∉ ([cA] : List LineNumberChunk).map LineNumberChunk.chunk_id))).map
        Prod.fst).take (max 1 1) ∧
    (search_similar envSel st2 "r" cA.content (1 + ([cA] : List LineNumberChunk).length)).Pairwise
      (fun a b => a.2 ≤ b.2)) :=
  ⟨rfl, c6_related_filtered_take envSel st2 "r" "f" 1 2 1 cA [] ⟨1, [[0], [1]]⟩
    [cA, cB] [1] rfl rfl rfl rfl rfl rfl⟩

/-- C7: querying an existing, consistent index holding n aligned chunks for
k neighbors returns exactly min(k, n) ranked results — k is silently clamped
to the stored count. -/
theorem c7_query_clamped_to_count (env : Env) (st : StoreState)
    (repo query : String) (k : Nat) (fidx : FaissIndex)
    (chunks : List LineNumberChunk) (qv : List Rat)
    (hf : st.faissFile repo = some fidx)
    (hc : st.chunksFile repo = some chunks)
    (hlen : fidx.vectors.length = chunks.length)
    (hq : env.embedQuery query = .ok qv)
    (hd : qv.length = fidx.dim) :
    (search_similar env st repo query k).length = min k chunks.length :=
  (search_similar_spec env st repo query k fidx chunks qv hf hc hlen hq hd).1

theorem c7_witness : (search_similar env8 st8 "r" "q" 10).length = 3 :=
  (c7_query_clamped_to_count env8 st8 "r" "q" 10
    ⟨8, [[1, 0, 0, 0, 0, 0, 0, 0], [0, 1, 0, 0, 0, 0, 0, 0], [0, 0, 1, 0, 0, 0, 0, 0]]⟩
    [cA, cB, cC] [1, 0, 0, 0, 0, 0, 0, 0] rfl rfl rfl rfl rfl).trans rfl

/-- C8 counterexample: with the index present, a raising embedding service
makes search_similar return the empty list — the same value as a zero-result
success — instead of surfacing an error, so the claim that such failures are
surfaced to the caller is false on the code. -/
theorem c8_counterexample :
    envFail.embedQuery "q" = .error "boom" ∧ has_index st2 "r" = true ∧
    search_similar envFail st2 "r" "q" 5 = [] :=
  ⟨rfl, rfl, rfl⟩

/-- C8 amended: an embedding-service failure during search_similar is caught
by its except branch and silently converted into an empty result list; the
caller receives a value indistinguishable from zero results, never an
error. -/
theorem c8_query_failure_swallowed (env : Env) (st : StoreState)
    (repo query : String) (k : Nat) (e : String)
    (h : env.embedQuery query = .error e) :
    search_similar env st repo query k = [] := by
  cases hf : st.faissFile repo <;> cases hc : st.chunksFile repo <;>
    simp [search_similar, has_index, hf, hc, h]

theorem c8_witness :
    envFail.embedQuery "q" = .error "boom" ∧
    search_similar envFail st2 "r" "q" 3 = [] :=
  ⟨rfl, c8_query_failure_swallowed envFail st2 "r" "q" 3 "boom" rfl⟩

/-- C9: create_index called with an empty chunk list returns False before
anything is embedded or written, leaving the persisted state — and therefore
has_index — unchanged. -/
theorem c9_empty_chunklist_rejected (env : Env) (st : StoreState) (repo : String) :
    create_index env st repo [] = (false, st) ∧
    has_index (create_index env st repo []).2 repo = has_index st repo :=
  ⟨rfl, rfl⟩

/-- C10 counterexample: when the chunk file holds more entries than the
FAISS index stores vectors, the search pads with neighbor index -1; that
index is outside the bounds of the chunk list yet passes the
idx < len(chunks) guard and is dereferenced (as the last chunk, by Python
negative indexing) instead of being skipped, so the claim as stated is false
at this input. -/
theorem c10_counterexample :
    faissSearch ⟨1, [[0]]⟩ [0] 2 = some [((0 : Int), (0 : Rat)), ((-1 : Int), padDist)] ∧
    search_similar env10 st10 "r" "q" 2 = [(cA, 0), (cB, padDist)] := by
  constructor
  · with_unfolding_all rfl
  · with_unfolding_all rfl

/-- C10 amended: the collection loop skips every neighbor index that is at
least len(chunks), and every result it assembles dereferences an element of
the stored chunk list (Python indexing maps the padding index -1 to the last
element), so search_similar only ever returns stored chunks and never raises
an out-of-range access; but a negative padding index is dereferenced, not
skipped. -/
theorem c10_collection_bounds (env : Env) (st : StoreState) (repo q : String)
    (k : Nat) (chunks : List LineNumberChunk) (pairs : List (Int × Rat))
    (rs : List (LineNumberChunk × Rat))
    (hc : st.chunksFile repo = some chunks)
    (hcol : collectResults chunks pairs = some rs) :
    (∀ x ∈ search_similar env st repo q k, x.1 ∈ chunks) ∧
    rs.length = (pairs.filter (fun p => decide (p.1 < (chunks.length : Int)))).length ∧
    ∀ x ∈ rs, x.1 ∈ chunks := by
  refine ⟨?_, (collectResults_count chunks pairs rs hcol).1,
    (collectResults_count chunks pairs rs hcol).2⟩
  intro x hx
  by_cases hhas : has_index st repo = true
  · cases hf : st.faissFile repo with
    | none => simp [search_similar, hhas, hf] at hx
    | some fidx =>
      cases hq : env.embedQuery q with
      | error e => simp [search_similar, hhas, hf, hc, hq] at hx
      | ok qv =>
        cases hfs : faissSearch fidx qv (min k chunks.length) with
        | none => simp [search_similar, hhas, hf, hc, hq, hfs] at hx
        | some pairs' =>
          cases hcol' : collectResults chunks pairs' with
          | none => simp [search_similar, hhas, hf, hc, hq, hfs, hcol'] at hx
          | some rs' =>
            have hss : search_similar env st repo q k = rs' := by
              simp only [search_similar, hhas, if_true, hf, hc, hq, hfs, hcol']
            rw [hss] at hx
            exact (collectResults_count chunks pairs' rs' hcol').2 x hx
  · simp [search_similar, hhas] at hx

theorem c10_witness :
    collectResults [cA, cB] [((0 : Int), (0 : Rat))] = some [(cA, 0)] ∧
    ((∀ x ∈ search_similar env10 st10 "r" "q" 2, x.1 ∈ [cA, cB]) ∧
      ([((cA : LineNumberChunk), (0 : Rat))]).length =
        (([((0 : Int), (0 : Rat))]).filter
          (fun p => decide (p.1 < (([cA, cB] : List LineNumberChunk).length : Int)))).length ∧
      ∀ x ∈ [((cA : LineNumberChunk), (0 : Rat))], x.1 ∈ [cA, cB]) := by
  have h : collectResults [cA, cB] [((0 : Int), (0 : Rat))] = some [(cA, 0)] := by decide
  exact ⟨h, c10_collection_bounds env10 st10 "r" "q" 2 [cA, cB]
    [((0 : Int), (0 : Rat))] [(cA, 0)] rfl h⟩

end RepoLogic
